import Mathlib

/-!
Verification of the `ansimage` engine of the gif-live repository.

The Go package converts a decoded multi-frame GIF into per-frame grids of
ANSI-pixels and renders each frame as a block of ANSI escape-code text.
The definitions below are a shallow embedding of that package:

* Go `uint8` channel values are embedded as `Nat` (all writes stay below 256);
* Go `int` values (dimensions, coordinates, frame indices) are embedded as `Int`;
* Go slice indexing, which panics when out of range, is embedded as an
  `Option`-valued lookup (`none` = runtime panic);
* Go functions that return `error` are embedded with explicit result types
  whose constructors separate a returned error from a panic;
* Go `float64` arithmetic of the quantizer is embedded as exact rational
  (`ℚ`) arithmetic.
-/

namespace GifLive

/-- Unicode Block Element character used to represent lower pixel in terminal row. -/
def lowerHalfBlock : String := "▄"

/-- Full block element (dithering glyph). -/
def fullBlock : String := "█"

/-- Dark shade block element (dithering glyph). -/
def darkShadeBlock : String := "▓"

/-- Medium shade block element (dithering glyph). -/
def mediumShadeBlock : String := "▒"

/-- Light shade block element (dithering glyph). -/
def lightShadeBlock : String := "░"

/-- Dithering mode constant: no dithering (classic half-block mode). Go: `NoDithering = DitheringMode(iota)`. -/
def NoDithering : Nat := 0

/-- Dithering mode constant: block-element dithering. -/
def DitheringWithBlocks : Nat := 1

/-- Dithering mode constant: character dithering. -/
def DitheringWithChars : Nat := 2

/-- ANSImage block height in pixels (dithering mode). -/
def BlockSizeY : Int := 8

/-- ANSImage block width in pixels (dithering mode). -/
def BlockSizeX : Int := 4

/-- An ANSI-pixel of an ANSImage: color channels, brightness and the
upper/lower role flag.  The Go struct also carries a back pointer `source`
to the owning `ANSImage`; in this embedding the fields of the owner that
the pixel renderer reads (dithering mode and background color) are passed
explicitly as a `SrcCfg`. -/
structure ANSIpixel where
  R : Nat
  G : Nat
  B : Nat
  Brightness : Nat
  upper : Bool
deriving DecidableEq

/-- The fields of the owning `ANSImage` that `ANSIpixel.RenderExt` reads
through the pixel's `source` pointer. -/
structure SrcCfg where
  dithering : Nat
  bgR : Nat
  bgG : Nat
  bgB : Nat
deriving DecidableEq

/-- Background-color escape `ESC[48;2;R;G;Bm` (Go: `fmt.Sprintf("%s[48;2;%d;%d;%dm", backslash033, ...)`). -/
def bgEscape (r g b : Nat) : String :=
  "\x1b[48;2;" ++ toString r ++ ";" ++ toString g ++ ";" ++ toString b ++ "m"

/-- Foreground-color escape `ESC[38;2;R;G;Bm`. -/
def fgEscape (r g b : Nat) : String :=
  "\x1b[38;2;" ++ toString r ++ ";" ++ toString g ++ ";" ++ toString b ++ "m"

/-- Glyph selected by the brightness threshold ladder of `ANSIpixel.RenderExt`
(source lines 195-232).  `none` embeds the `panic(errUnknownDitheringMode)`
branch taken for a dithering mode other than blocks/chars. -/
def ditherGlyph (dm : Nat) (bri : Nat) : Option String :=
  if dm = DitheringWithBlocks then
    some (if bri > 204 then fullBlock
      else if bri > 152 then darkShadeBlock
      else if bri > 100 then mediumShadeBlock
      else if bri > 48 then lightShadeBlock
      else " ")
  else if dm = DitheringWithChars then
    some (if bri > 230 then "#"
      else if bri > 207 then "&"
      else if bri > 184 then "$"
      else if bri > 161 then "X"
      else if bri > 138 then "x"
      else if bri > 115 then "="
      else if bri > 92 then "+"
      else if bri > 69 then ";"
      else if bri > 46 then ":"
      else if bri > 23 then "."
      else " ")
  else none

/-- ANSI-compatible string form of one ANSI-pixel (Go `ANSIpixel.RenderExt`,
source lines 171-249).  `none` embeds the panic on an unknown dithering mode. -/
def ANSIpixel.RenderExt (ap : ANSIpixel) (src : SrcCfg) (disableBgColor : Bool) : Option String :=
  if src.dithering = NoDithering then
    some (if ap.upper then bgEscape ap.R ap.G ap.B
          else fgEscape ap.R ap.G ap.B ++ lowerHalfBlock)
  else
    match ditherGlyph src.dithering ap.Brightness with
    | none => none
    | some block =>
      let bgColorStr := if disableBgColor then "" else bgEscape src.bgR src.bgG src.bgB
      some (bgColorStr ++ fgEscape ap.R ap.G ap.B ++ block)

/-- Go `ANSIpixel.Render` (source line 165): `RenderExt` with background color enabled. -/
def ANSIpixel.Render (ap : ANSIpixel) (src : SrcCfg) : Option String :=
  ap.RenderExt src false

/-- One frame of an ANSImage: a grid of ANSI-pixels (rows of columns). -/
abbrev ANSIframe := List (List ANSIpixel)

/-- Go slice read `l[i]` with an `int` index: `none` embeds the
index-out-of-range panic (negative index or index past the end). -/
def listIdx? {α : Type} (l : List α) (i : Int) : Option α :=
  if 0 ≤ i then l.get? i.toNat else none

/-- Functional update of position `i` of a list.  Every call site first
performs a successful `listIdx?` at the same index, so the index is in
range and nonnegative; the guard only keeps a negative `i` from touching
position 0. -/
def listSet {α : Type} (l : List α) (i : Int) (a : α) : List α :=
  if 0 ≤ i then l.set i.toNat a else l

/-- An image encoded in ANSI escape codes (Go `ANSImage`, source lines 147-157). -/
structure ANSImage where
  h : Int
  w : Int
  maxprocs : Int
  bgR : Nat
  bgG : Nat
  bgB : Nat
  dithering : Nat
  frame : List ANSIframe
  delay : List Int
deriving DecidableEq

/-- The owner fields that a pixel of this image reads through its `source` pointer. -/
def ANSImage.srcCfg (ai : ANSImage) : SrcCfg :=
  { dithering := ai.dithering, bgR := ai.bgR, bgG := ai.bgG, bgB := ai.bgB }

/-- Go `ANSImage.FrameCount` (source line 252): number of frames. -/
def ANSImage.FrameCount (ai : ANSImage) : Int :=
  (ai.frame.length : Int)

/-- Go `ANSImage.FrameDelay` (source lines 257-259): `ai.delay[frame]` with no
bounds check of its own; `none` embeds the slice-index panic. -/
def ANSImage.FrameDelay (ai : ANSImage) (frame : Int) : Option Int :=
  listIdx? ai.delay frame

/-- Result of `ANSImage.SetAt`: Go returns `nil` (with the grid mutated) or
`ErrOutOfBounds`; indexing `ai.frame[frame][y][x]` with a bad frame index
panics before anything is written. -/
inductive SetAtResult where
  | ok (ai : ANSImage)
  | outOfBounds
  | panicked
deriving DecidableEq

/-- Result of `ANSImage.GetAt`: the returned pixel copy, `ErrOutOfBounds`,
or a slice-index panic. -/
inductive GetAtResult where
  | ok (p : ANSIpixel)
  | outOfBounds
  | panicked
deriving DecidableEq

/-- Go `ANSImage.SetAt` (source lines 288-298).  The `y`/`x` bounds check
against `ai.h`/`ai.w` runs first; only inside it is `ai.frame[frame][y][x]`
indexed (panicking on a bad frame index or a malformed grid).  The cell's
color, brightness and role flag are all overwritten; the flag is derived
from the dithering mode and the parity of `y` alone. -/
def ANSImage.SetAt (ai : ANSImage) (frame y x : Int) (r g b brightness : Nat) : SetAtResult :=
  if 0 ≤ y ∧ y < ai.h ∧ 0 ≤ x ∧ x < ai.w then
    match listIdx? ai.frame frame with
    | none => .panicked
    | some fr =>
      match listIdx? fr y with
      | none => .panicked
      | some row =>
        match listIdx? row x with
        | none => .panicked
        | some _ =>
          .ok { ai with
            frame := listSet ai.frame frame (listSet fr y (listSet row x
              { R := r, G := g, B := b, Brightness := brightness,
                upper := decide (ai.dithering = NoDithering ∧ y % 2 = 0) })) }
  else .outOfBounds

/-- Go `ANSImage.GetAt` (source lines 301-314): bounds-checked read returning
a copy of the pixel at `(y, x)` of the given frame. -/
def ANSImage.GetAt (ai : ANSImage) (frame y x : Int) : GetAtResult :=
  if 0 ≤ y ∧ y < ai.h ∧ 0 ≤ x ∧ x < ai.w then
    match listIdx? ai.frame frame with
    | none => .panicked
    | some fr =>
      match listIdx? fr y with
      | none => .panicked
      | some row =>
        match listIdx? row x with
        | none => .panicked
        | some p => .ok p
  else .outOfBounds

/-- Construction errors (Go package-level `errors.New` values).
`decodeFailed` carries the message of an error propagated from `gif.DecodeAll`. -/
inductive AnsiError where
  | heightNonMoT
  | invalidBoundsMoT
  | outOfBounds
  | decodeFailed (msg : String)
deriving DecidableEq

/-- Fresh frame grid built by the `newFrame` closure of Go `New`
(source lines 419-435): `h` rows of `w` zero pixels, the role flag of row `y`
set to `dm == NoDithering && y % 2 == 0`. -/
def newFrameGrid (h w : Int) (dm : Nat) : ANSIframe :=
  (List.range h.toNat).map fun (y : Nat) =>
    List.replicate w.toNat
      { R := 0, G := 0, B := 0, Brightness := 0,
        upper := decide (dm = NoDithering ∧ (y : Int) % 2 = 0) }

/-- Go `New` (source lines 398-442): validates the configuration, then builds
an empty ANSImage with `frameCount` fresh frames and zero delays.  The Go
background color already arrives here converted to three `uint8` channels
(`uint8(r)` of `bg.RGBA()`), so the embedding takes the three channel values
directly. -/
def New (h w frameCount : Int) (bgR bgG bgB : Nat) (dm : Nat) : Except AnsiError ANSImage :=
  if dm = NoDithering ∧ h % 2 ≠ 0 then
    .error .heightNonMoT
  else if h < 2 ∨ w < 2 then
    .error .invalidBoundsMoT
  else
    .ok { h := h, w := w, maxprocs := 1,
          bgR := bgR, bgG := bgG, bgB := bgB,
          dithering := dm,
          frame := List.replicate frameCount.toNat (newFrameGrid h w dm),
          delay := List.replicate frameCount.toNat 0 }

/-- Concatenation of the rendered cells of one no-dithering terminal row
(the body of the goroutine at source lines 339-345 up to the reset escape):
grid row `y` supplies the upper pixel of each column and grid row `y+1` the
lower pixel. -/
def rowCellsND (src : SrcCfg) (fr : ANSIframe) (y : Int) (w : Nat) (d : Bool) : Option String :=
  (List.range w).foldlM
    (fun acc x => do
      let ru ← listIdx? fr y
      let up ← listIdx? ru (Int.ofNat x)
      let rl ← listIdx? fr (y + 1)
      let lo ← listIdx? rl (Int.ofNat x)
      let su ← up.RenderExt src d
      let sl ← lo.RenderExt src d
      pure (acc ++ su ++ sl))
    ""

/-- One complete no-dithering terminal row `r` (source rows `2*r` and `2*r+1`),
terminated by the style-reset escape and a newline (source line 345). -/
def rowPairND (src : SrcCfg) (fr : ANSIframe) (r : Int) (w : Nat) (d : Bool) : Option String := do
  let cells ← rowCellsND src fr (2 * r) w d
  pure (cells ++ "\x1b[0m\n")

/-- Concatenation of the rendered cells of one dithering terminal row
(the body of the goroutine at source lines 368-373 up to the reset escape). -/
def rowCellsD (src : SrcCfg) (fr : ANSIframe) (y : Int) (w : Nat) (d : Bool) : Option String :=
  (List.range w).foldlM
    (fun acc x => do
      let ry ← listIdx? fr y
      let p ← listIdx? ry (Int.ofNat x)
      let s ← p.RenderExt src d
      pure (acc ++ s))
    ""

/-- One complete dithering terminal row `y`, terminated by the style-reset
escape and a newline (source line 373). -/
def rowSingleD (src : SrcCfg) (fr : ANSIframe) (y : Int) (w : Nat) (d : Bool) : Option String := do
  let cells ← rowCellsD src fr y w d
  pure (cells ++ "\x1b[0m\n")

/-- Row indices spawned by one window of the no-dithering render loop
(source line 338): `for n, r := 0, y+1; (n <= maxprocs) && (2*r+1 < h);
n, r = n+1, y+n+1`.  The `fuel` argument makes the recursion structural; the
loop increments `n` every iteration and stops once `n > m`, so
`(m + 1).toNat` iterations (supplied at the wrapper below) are exactly
enough: when the fuel is exhausted the guard `n ≤ m` has already failed. -/
def spawnNDAux (h m y : Int) : Nat → Int → Int → List Int
  | 0, _, _ => []
  | fuel + 1, n, r =>
    if n ≤ m ∧ 2 * r + 1 < h then r :: spawnNDAux h m y fuel (n + 1) (y + n + 1)
    else []

/-- Row indices spawned by the window starting at `y` (no dithering). -/
def spawnND (h m y : Int) : List Int :=
  spawnNDAux h m y (m + 1).toNat 0 (y + 1)

/-- Row indices spawned by one window of the dithering render loop
(source line 367): `for n, r := 0, y; (n <= maxprocs) && (r+1 < h);
n, r = n+1, y+n+1`. -/
def spawnDAux (h m y : Int) : Nat → Int → Int → List Int
  | 0, _, _ => []
  | fuel + 1, n, r =>
    if n ≤ m ∧ r + 1 < h then r :: spawnDAux h m y fuel (n + 1) (y + n + 1)
    else []

/-- Row indices spawned by the window starting at `y` (dithering). -/
def spawnD (h m y : Int) : List Int :=
  spawnDAux h m y (m + 1).toNat 0 y

/-- Concatenation of the per-window spawn lists over the outer loop
`for y := 0; y < h; y += maxprocs` (source lines 336 and 365).  `y` advances
by `m ≥ 1` each iteration, so `h.toNat` iterations are exactly enough: the
guard `y < h` has already failed when the fuel runs out.  (For `m ≤ 0` the
Go loop never terminates; the engine always runs with `maxprocs = 1`.) -/
def windowsAux (h m : Int) (spawn : Int → List Int) : Nat → Int → List Int
  | 0, _ => []
  | fuel + 1, y =>
    if y < h then spawn y ++ windowsAux h m spawn fuel (y + m)
    else []

/-- All row indices spawned by the full no-dithering render loop, in spawn order. -/
def windowsND (h m : Int) : List Int :=
  windowsAux h m (spawnND h m) h.toNat 0

/-- All row indices spawned by the full dithering render loop, in spawn order. -/
def windowsD (h m : Int) : List Int :=
  windowsAux h m (spawnD h m) h.toNat 0

/-- Write `s` into slot `i` of the `rows` slice (`rows[data.row] = data.render`,
source lines 354 and 379); `none` embeds the slice-index panic. -/
def setRow? (rows : List String) (i : Int) (s : String) : Option (List String) :=
  if 0 ≤ i ∧ i.toNat < rows.length then some (rows.set i.toNat s) else none

/-- Go `ANSImage.RenderExt` (source lines 324-383).  Each goroutine computes a
pure function of its row index and sends `(rowIndex, text)` on the channel; the
collection loop stores results keyed by row index, so the final `rows` slice is
independent of completion order and the whole render collapses to the
deterministic function below: fold the spawned row indices (in spawn order)
over the rows slice, writing the rendered text of each spawned row into its
slot, then join.  Slots whose index is never spawned keep the empty string.
`none` embeds a panic (invalid frame index, malformed grid, or unknown
dithering mode inside a pixel render). -/
def ANSImage.RenderExt (ai : ANSImage) (frame : Int) (disableBgColor : Bool) : Option String :=
  match listIdx? ai.frame frame with
  | none => none
  | some fr =>
    if ai.dithering = NoDithering then do
      let rows ← (windowsND ai.h ai.maxprocs).foldlM
        (fun rows r => do
          let s ← rowPairND ai.srcCfg fr r ai.w.toNat disableBgColor
          setRow? rows r s)
        (List.replicate (ai.h / 2).toNat "")
      pure (String.join rows)
    else do
      let rows ← (windowsD ai.h ai.maxprocs).foldlM
        (fun rows r => do
          let s ← rowSingleD ai.srcCfg fr r ai.w.toNat disableBgColor
          setRow? rows r s)
        (List.replicate ai.h.toNat "")
      pure (String.join rows)

/-- Go `ANSImage.Render` (source line 317): first frame, background enabled. -/
def ANSImage.Render (ai : ANSImage) : Option String :=
  ai.RenderExt 0 false

/-- Modelled from the spec's words (claim C1), for comparison with
`ANSImage.RenderExt`: the text obtained by rendering exactly one row per
terminal row index — `h/2` row-pair rows without dithering, `h` single rows
with dithering — and concatenating them in strictly ascending row order. -/
def specRowConcat (ai : ANSImage) (frame : Int) (disableBgColor : Bool) : Option String :=
  match listIdx? ai.frame frame with
  | none => none
  | some fr =>
    if ai.dithering = NoDithering then
      ((List.range (ai.h / 2).toNat).mapM
        (fun r => rowPairND ai.srcCfg fr (Int.ofNat r) ai.w.toNat disableBgColor)).map
        String.join
    else
      ((List.range ai.h.toNat).mapM
        (fun r => rowSingleD ai.srcCfg fr (Int.ofNat r) ai.w.toNat disableBgColor)).map
        String.join

/-- A composited RGBA pixel buffer (`*image.RGBA`).  The buffers this engine
builds all have `bounds.Min = (0,0)` (they come from `image.NewRGBA` of a GIF
frame's bounds), so only the exclusive maxima are kept.  `px x y` gives the
8-bit color channels at `(x, y)`; Go's `RGBA.At` returns the zero color
outside the bounds, so a total function is faithful. -/
structure Img where
  yMax : Int
  xMax : Int
  px : Int → Int → Nat × Nat × Nat

/-- Go `gifProxy` (source lines 159-162): decoded (or scaled) frame buffers
plus the per-frame delays.  The same structure also embeds the output of
`gif.DecodeAll` (`gif.GIF`'s `Image` and `Delay` slices). -/
structure GifProxy where
  image : List Img
  delay : List Int

/-- Result of the construction functions: Go returns `(*ANSImage, error)`,
and some paths panic instead. -/
inductive BuildResult where
  | ok (ai : ANSImage)
  | err (e : AnsiError)
  | panicked
deriving DecidableEq

/-- Whether a `BuildResult` is an error returned to the caller. -/
def BuildResult.isErrReturn : BuildResult → Bool
  | .err _ => true
  | _ => false

/-- The `go-colorful` view of an 8-bit pixel as used by the quantizer loop
(source lines 604-609): `colorful.MakeColor` yields channel values `c/255` on
a 0-1 scale, and the V channel of `Hsv()` is the maximum of the three.  Go
computes these in `float64`; the embedding uses exact rationals. -/
def colorfulOf (p : Nat × Nat × Nat) : ℚ × ℚ × ℚ × ℚ :=
  ((p.1 : ℚ) / 255, (p.2.1 : ℚ) / 255, (p.2.2 : ℚ) / 255,
    ((max p.1 (max p.2.1 p.2.2)) : ℚ) / 255)

/-- Go's `uint8(f)` conversion of a nonnegative `float64`: truncation.  All
values converted by the quantizer lie in `[0, 255.5]`; the final `% 256`
records the 8-bit width of the destination. -/
def qToUint8 (q : ℚ) : Nat :=
  (Int.toNat ⌊q⌋) % 256

/-- The 8×4 block of source pixels aggregated for cell `(y, x)` (source lines
597-611): `dy` outer from 0 to 7, `dx` inner from 0 to 3, reading the pixel at
`(BlockSizeX*x + dx, BlockSizeY*y + dy)`. -/
def blockPixels (img : Img) (y x : Int) : List (Nat × Nat × Nat) :=
  (List.range 8).flatMap fun dy =>
    (List.range 4).map fun dx =>
      img.px (4 * x + (dx : Int)) (8 * y + (dy : Int))

/-- The block-averaging step of the quantizer (source lines 596-616): sum the
R, G, B and brightness channels of the block's pixels, divide each sum by the
pixel count 32, scale to 0-255 and round by adding 1/2 then truncating. -/
def quantizeSums (pxs : List (ℚ × ℚ × ℚ × ℚ)) : Nat × Nat × Nat × Nat :=
  let s := pxs.foldl
    (fun (acc : ℚ × ℚ × ℚ × ℚ) p =>
      (acc.1 + p.1, acc.2.1 + p.2.1, acc.2.2.1 + p.2.2.1, acc.2.2.2 + p.2.2.2))
    (0, 0, 0, 0)
  (qToUint8 (s.1 / 32 * 255 + 1/2),
   qToUint8 (s.2.1 / 32 * 255 + 1/2),
   qToUint8 (s.2.2.1 / 32 * 255 + 1/2),
   qToUint8 (s.2.2.2 / 32 * 255 + 1/2))

/-- The list `0, 1, ..., b-1` of Go loop counters `for i := 0; i < b; i++`. -/
def intRange (b : Int) : List Int :=
  (List.range b.toNat).map Int.ofNat

/-- The no-dithering quantization loop for one frame (source lines 581-589):
copy the raw pixel at every `(y, x)` of the truncated region through `SetAt`
with brightness 0.  A returned `ErrOutOfBounds` aborts construction
(`return nil, err`). -/
def quantFrameND (ai : ANSImage) (f : Int) (img : Img) (yMax xMax : Int) : BuildResult :=
  (intRange yMax).foldl
    (fun acc y =>
      match acc with
      | .ok ai =>
        (intRange xMax).foldl
          (fun acc2 x =>
            match acc2 with
            | .ok ai =>
              let v := img.px x y
              match ai.SetAt f y x v.1 v.2.1 v.2.2 0 with
              | .ok ai2 => .ok ai2
              | .outOfBounds => .err .outOfBounds
              | .panicked => .panicked
            | other => other)
          (.ok ai)
      | other => other)
    (.ok ai)

/-- The dithering quantization loop for one frame (source lines 590-622):
average each 8×4 block and write the cell through `SetAt`. -/
def quantFrameD (ai : ANSImage) (f : Int) (img : Img) (yMax xMax : Int) : BuildResult :=
  (intRange yMax).foldl
    (fun acc y =>
      match acc with
      | .ok ai =>
        (intRange xMax).foldl
          (fun acc2 x =>
            match acc2 with
            | .ok ai =>
              let q := quantizeSums ((blockPixels img y x).map colorfulOf)
              match ai.SetAt f y x q.1 q.2.1 q.2.2.1 q.2.2.2 with
              | .ok ai2 => .ok ai2
              | .outOfBounds => .err .outOfBounds
              | .panicked => .panicked
            | other => other)
          (.ok ai)
      | other => other)
    (.ok ai)

/-- Write `d` into `ai.delay[f]` (source line 556); `none` embeds the
slice-index panic. -/
def setDelay? (ai : ANSImage) (f : Int) (d : Int) : Option ANSImage :=
  if 0 ≤ f ∧ f.toNat < ai.delay.length then
    some { ai with delay := ai.delay.set f.toNat d }
  else none

/-- The per-frame loop of Go `createANSImage` (source lines 554-624).  The
state carries `yMax`/`xMax`, because the source truncates them inside the
loop: `yMax = yMax - yMax%2` without dithering, `yMax = yMax / BlockSizeY;
xMax = xMax / BlockSizeX` with dithering — executed again on every frame.
Compositing of the (fully opaque) frame buffer over the opaque background
(source lines 558-571) leaves the 8-bit pixel values unchanged, so the
embedding reads `img.px` directly. -/
def createLoop (g : GifProxy) (dm : Nat) : List Img → Int → Int → Int → ANSImage → BuildResult
  | [], _, _, _, ai => .ok ai
  | img :: rest, f, yMax, xMax, ai =>
    match listIdx? g.delay f with
    | none => .panicked
    | some d =>
      match setDelay? ai f d with
      | none => .panicked
      | some ai =>
        let yMax2 := if dm = NoDithering then yMax - yMax % 2 else yMax / BlockSizeY
        let xMax2 := if dm = NoDithering then xMax else xMax / BlockSizeX
        match (if dm = NoDithering then quantFrameND ai f img yMax2 xMax2
               else quantFrameD ai f img yMax2 xMax2) with
        | .ok ai2 => createLoop g dm rest (f + 1) yMax2 xMax2 ai2
        | other => other

/-- Go `createANSImage` (source lines 541-627): take the bounds of the first
frame (panicking if there is none), build the empty ANSImage through `New`,
then run the per-frame delay-store/truncate/quantize loop. -/
def createANSImage (g : GifProxy) (bgR bgG bgB : Nat) (dm : Nat) : BuildResult :=
  match g.image with
  | [] => .panicked
  | img0 :: _ =>
    let yMax := img0.yMax
    let xMax := img0.xMax
    match New yMax xMax (g.image.length : Int) bgR bgG bgB dm with
    | .error e => .err e
    | .ok ansimage => createLoop g dm g.image 0 yMax xMax ansimage

/-- A zeroed RGBA buffer with the given bounds (`image.NewRGBA`). -/
def newRGBA (yMax xMax : Int) : Img :=
  { yMax := yMax, xMax := xMax, px := fun _ _ => (0, 0, 0) }

/-- Go `NewFromReader` (source lines 447-469).  The result of `gif.DecodeAll`
is the `decoded` argument (`.error msg` when the stream is malformed — Go's
decoder also returns an error, `gif: not enough image data`, when a stream
contains zero frames).  `drawOver` embeds the stdlib `draw.Draw(img, bounds,
palettedImg, ZP, draw.Over)` call.  The source allocates one RGBA buffer
before the loop, draws every frame over it, and stores the same buffer
pointer into every `proxy.image` slot — so by the time `createANSImage`
runs, every proxy frame is the accumulated composite of all frames. -/
def NewFromReader (drawOver : Img → Img → Img) (decoded : Except String GifProxy)
    (bgR bgG bgB : Nat) (dm : Nat) : BuildResult :=
  match decoded with
  | .error msg => .err (.decodeFailed msg)
  | .ok gifImage =>
    match gifImage.image with
    | [] => .panicked
    | img0 :: _ =>
      if gifImage.image.length ≤ gifImage.delay.length then
        let finalImg := gifImage.image.foldl drawOver (newRGBA img0.yMax img0.xMax)
        let proxy : GifProxy :=
          { image := List.replicate gifImage.image.length finalImg,
            delay := gifImage.delay }
        createANSImage proxy bgR bgG bgB dm
      else .panicked

/-- The per-frame loop of Go `NewScaledFromReader` (source lines 488-503):
draw the frame over the shared buffer, then scale the accumulated buffer by
the scale-mode switch — `imaging.Resize` / `imaging.Fill` / `imaging.Fit`
(embedded as the function arguments `resizeF`/`fillF`/`fitF`, applied to the
target width `x` and height `y`), and `panic(errUnknownScaleMode)` on any
other mode, re-evaluated on every frame.  `none` embeds a panic. -/
def scaleFrames (drawOver : Img → Img → Img) (resizeF fillF fitF : Img → Int → Int → Img)
    (y x : Int) (sm : Nat) (delays : List Int) :
    List Img → Int → Img → List Img → Option (List Img)
  | [], _, _, out => some out.reverse
  | frameImg :: rest, f, img, out =>
    match listIdx? delays f with
    | none => none
    | some _ =>
      let img2 := drawOver img frameImg
      if sm = 0 then
        scaleFrames drawOver resizeF fillF fitF y x sm delays rest (f + 1) img2 (resizeF img2 x y :: out)
      else if sm = 1 then
        scaleFrames drawOver resizeF fillF fitF y x sm delays rest (f + 1) img2 (fillF img2 x y :: out)
      else if sm = 2 then
        scaleFrames drawOver resizeF fillF fitF y x sm delays rest (f + 1) img2 (fitF img2 x y :: out)
      else none

/-- Go `NewScaledFromReader` (source lines 474-506): decode, composite and
scale every frame (panicking on an unknown scale mode), then build the
ANSImage from the scaled buffers. -/
def NewScaledFromReader (drawOver : Img → Img → Img) (resizeF fillF fitF : Img → Int → Int → Img)
    (decoded : Except String GifProxy) (y x : Int)
    (bgR bgG bgB : Nat) (sm : Nat) (dm : Nat) : BuildResult :=
  match decoded with
  | .error msg => .err (.decodeFailed msg)
  | .ok gifImage =>
    match gifImage.image with
    | [] => .panicked
    | img0 :: _ =>
      match scaleFrames drawOver resizeF fillF fitF y x sm gifImage.delay
          gifImage.image 0 (newRGBA img0.yMax img0.xMax) [] with
      | none => .panicked
      | some scaled =>
        createANSImage { image := scaled, delay := gifImage.delay } bgR bgG bgB dm

/-- Modelled from the spec's words (claim C5): the five-tier block-dithering
brightness ladder — full block above 204, dark shade above 152, medium shade
above 100, light shade above 48, space otherwise. -/
def specBlockLadder (bri : Nat) : String :=
  if bri > 204 then fullBlock
  else if bri > 152 then darkShadeBlock
  else if bri > 100 then mediumShadeBlock
  else if bri > 48 then lightShadeBlock
  else " "

/-- The character-dithering glyphs listed by the spec, from brightest to
darkest (the last is the space of the darkest tier). -/
def specCharGlyphs : List Char := "#&$Xx=+;:. ".toList

/-- Tier index (0 = brightest, 10 = darkest) of the character-dithering
ladder of `ditherGlyph`, following its thresholds. -/
def charTier (bri : Nat) : Nat :=
  if bri > 230 then 0
  else if bri > 207 then 1
  else if bri > 184 then 2
  else if bri > 161 then 3
  else if bri > 138 then 4
  else if bri > 115 then 5
  else if bri > 92 then 6
  else if bri > 69 then 7
  else if bri > 46 then 8
  else if bri > 23 then 9
  else 10

/-- The cell coordinate `(y, x)` passes the bounds check of `SetAt`/`GetAt`. -/
def inGrid (ai : ANSImage) (y x : Int) : Prop :=
  0 ≤ y ∧ y < ai.h ∧ 0 ≤ x ∧ x < ai.w

/-- The grid really has the advertised dimensions: every frame has `h` rows
of `w` pixels.  `New` establishes this shape and `SetAt` preserves it. -/
def wellFormed (ai : ANSImage) : Prop :=
  ∀ fr ∈ ai.frame, fr.length = ai.h.toNat ∧ ∀ row ∈ fr, row.length = ai.w.toNat

/-- Role-flag invariant (claim C10): every pixel of row `y` of every frame
has `upper` exactly when the image is in no-dithering mode and `y` is even. -/
def upperInv (ai : ANSImage) : Prop :=
  ∀ fr ∈ ai.frame, ∀ (y : Nat) (row : List ANSIpixel), fr.get? y = some row →
    ∀ p ∈ row, p.upper = decide (ai.dithering = NoDithering ∧ ((y : Int)) % 2 = 0)

/-- ANSImages reachable through the public construction interface: built by
`New` and then mutated by any sequence of successful `SetAt` calls. -/
inductive Reachable : ANSImage → Prop where
  | new (h w frameCount : Int) (bgR bgG bgB : Nat) (dm : Nat) (ai : ANSImage) :
      New h w frameCount bgR bgG bgB dm = .ok ai → Reachable ai
  | set (ai : ANSImage) (frame y x : Int) (r g b brightness : Nat) (ai2 : ANSImage) :
      Reachable ai → ai.SetAt frame y x r g b brightness = .ok ai2 → Reachable ai2

/-- Placeholder ANSImage used only to make `Except`/`Option` projections total. -/
def defaultImg : ANSImage :=
  { h := 0, w := 0, maxprocs := 1, bgR := 0, bgG := 0, bgB := 0,
    dithering := 0, frame := [], delay := [] }

/-- Placeholder pixel used only to make list projections total. -/
def defaultPx : ANSIpixel :=
  { R := 0, G := 0, B := 0, Brightness := 0, upper := false }

/-- Concrete 4×2 single-frame no-dithering image built by `New`. -/
def img4 : ANSImage := ((New 4 2 1 0 0 0 0).toOption).getD defaultImg

/-- Concrete 4×2 single-frame block-dithering image built by `New`. -/
def imgD4 : ANSImage := ((New 4 2 1 0 0 0 1).toOption).getD defaultImg

/-- The rendered text of one all-zero no-dithering terminal row of width 2. -/
def rowZeroND : String :=
  "\x1b[48;2;0;0;0m\x1b[38;2;0;0;0m▄" ++ "\x1b[48;2;0;0;0m\x1b[38;2;0;0;0m▄" ++ "\x1b[0m\n"

/-- The rendered text of one all-zero block-dithering terminal row of width 2
(brightness 0 selects the space glyph). -/
def rowZeroD : String :=
  "\x1b[48;2;0;0;0m\x1b[38;2;0;0;0m " ++ "\x1b[48;2;0;0;0m\x1b[38;2;0;0;0m " ++ "\x1b[0m\n"

/-- A uniform white 8×4 frame buffer — exactly one quantizer block. -/
def whiteImg : Img := { yMax := 8, xMax := 4, px := fun _ _ => (255, 255, 255) }

/-- A two-frame proxy whose frames are the identical buffer `whiteImg`. -/
def gif2 : GifProxy := { image := [whiteImg, whiteImg], delay := [5, 5] }

/-- A single-frame proxy over `whiteImg`. -/
def gif1 : GifProxy := { image := [whiteImg], delay := [3] }

/-- Concrete stand-in for the stdlib `draw.Draw` compositing call. -/
def idDraw : Img → Img → Img := fun a _ => a

/-- Concrete stand-in for the `imaging` library resampling calls. -/
def idScale : Img → Int → Int → Img := fun i _ _ => i

/-- The pixel stored at cell `(y, x)` of frame `f` of a successful build;
`none` when construction did not return an image. -/
def cellOfBuild (b : BuildResult) (f y x : Nat) : Option ANSIpixel :=
  match b with
  | .ok ai => some (((ai.frame.getD f []).getD y []).getD x defaultPx)
  | _ => none

/-! ## Helper lemmas about the embedded slice operations -/

theorem listIdx?_of_nonneg {α : Type} {l : List α} {i : Int} (h0 : 0 ≤ i) :
    listIdx? l i = l.get? i.toNat := by
  unfold listIdx?
  exact if_pos h0

theorem listIdx?_eq_some {α : Type} {l : List α} {i : Int} {a : α}
    (h : listIdx? l i = some a) : 0 ≤ i ∧ l.get? i.toNat = some a := by
  unfold listIdx? at h
  by_cases h0 : 0 ≤ i
  · rw [if_pos h0] at h
    exact ⟨h0, h⟩
  · rw [if_neg h0] at h
    exact absurd h (by simp)

theorem listIdx?_neg {α : Type} {l : List α} {i : Int} (h0 : i < 0) :
    listIdx? l i = none := by
  unfold listIdx?
  rw [if_neg (by omega)]

theorem listIdx?_past {α : Type} {l : List α} {i : Int} (h0 : 0 ≤ i)
    (h : l.length ≤ i.toNat) : listIdx? l i = none := by
  rw [listIdx?_of_nonneg h0]
  exact List.get?_eq_none.2 h

theorem listIdx?_mem {α : Type} {l : List α} {i : Int} {a : α}
    (h : listIdx? l i = some a) : a ∈ l :=
  List.get?_mem (listIdx?_eq_some h).2

theorem length_listSet {α : Type} (l : List α) (i : Int) (a : α) :
    (listSet l i a).length = l.length := by
  unfold listSet
  split
  · exact List.length_set ..
  · rfl

theorem listIdx?_listSet_self {α : Type} {l : List α} {i : Int} (h0 : 0 ≤ i)
    (hl : i.toNat < l.length) (a : α) : listIdx? (listSet l i a) i = some a := by
  unfold listIdx? listSet
  rw [if_pos h0, if_pos h0, List.get?_eq_getElem?]
  exact List.getElem?_set_eq_of_lt a hl

theorem get?_listSet_ne {α : Type} {l : List α} {i : Int} {j : Nat} (a : α)
    (h : i.toNat ≠ j ∨ i < 0) : (listSet l i a).get? j = l.get? j := by
  unfold listSet
  by_cases h0 : 0 ≤ i
  · rw [if_pos h0, List.get?_eq_getElem?, List.get?_eq_getElem? l]
    exact List.getElem?_set_ne (h.resolve_right (by omega))
  · rw [if_neg h0]

theorem get?_listSet_self {α : Type} {l : List α} {i : Int} (h0 : 0 ≤ i)
    (hl : i.toNat < l.length) (a : α) : (listSet l i a).get? i.toNat = some a := by
  unfold listSet
  rw [if_pos h0, List.get?_eq_getElem?]
  exact List.getElem?_set_eq_of_lt a hl

/-! ## Claim C5 -/

set_option maxRecDepth 100000 in
/-- Claim C5: in a dithering mode, the glyph is selected from the cell's
brightness (a `uint8`, hence quantified over `Fin 256`) by the exact spec
ladder.  Block mode follows the five-tier ladder `specBlockLadder` — in
particular the tier boundaries fall at 205/204, 153/152, 101/100 and 49/48;
character mode selects, for every brightness, the glyph of tier `charTier` of
the literal glyph list `#&$Xx=+;:. ` (0 = brightest), the tier index only
drops as brightness rises, and every one of the eleven tiers is attained
(tier 0 is `#`, the darkest tier 10 is the space). -/
theorem c5_glyph_ladders :
    (∀ bri : Fin 256, ditherGlyph DitheringWithBlocks bri.val = some (specBlockLadder bri.val)) ∧
    (ditherGlyph DitheringWithBlocks 205 = some fullBlock ∧
     ditherGlyph DitheringWithBlocks 204 = some darkShadeBlock ∧
     ditherGlyph DitheringWithBlocks 153 = some darkShadeBlock ∧
     ditherGlyph DitheringWithBlocks 152 = some mediumShadeBlock ∧
     ditherGlyph DitheringWithBlocks 101 = some mediumShadeBlock ∧
     ditherGlyph DitheringWithBlocks 100 = some lightShadeBlock ∧
     ditherGlyph DitheringWithBlocks 49 = some lightShadeBlock ∧
     ditherGlyph DitheringWithBlocks 48 = some " ") ∧
    (∀ bri : Fin 256, ditherGlyph DitheringWithChars bri.val =
      some (String.singleton (specCharGlyphs.getD (charTier bri.val) ' '))) ∧
    (∀ b : Fin 255, charTier (b.val + 1) ≤ charTier b.val) ∧
    (∀ t : Fin 11, charTier (231 - 23 * t.val) = t.val) := by
  refine ⟨by decide, ⟨rfl, rfl, rfl, rfl, rfl, rfl, rfl, rfl⟩, by decide, by decide, by decide⟩

/-! ## Claim C6 -/

/-- Claim C6: with dithering disabled, an upper cell renders to exactly the
background-color escape `ESC[48;2;R;G;Bm` of its own color and nothing else;
a lower cell renders to exactly the foreground-color escape `ESC[38;2;R;G;Bm`
followed by the half-block glyph U+2584; and every assembled terminal row
ends with the style-reset escape `ESC[0m` followed by a newline. -/
theorem c6_nodither_encoding (src : SrcCfg) (ap : ANSIpixel) (d : Bool)
    (hsrc : src.dithering = NoDithering) :
    (ap.upper = true → ap.RenderExt src d =
      some ("\x1b[48;2;" ++ toString ap.R ++ ";" ++ toString ap.G ++ ";" ++ toString ap.B ++ "m")) ∧
    (ap.upper = false → ap.RenderExt src d =
      some ("\x1b[38;2;" ++ toString ap.R ++ ";" ++ toString ap.G ++ ";" ++ toString ap.B ++ "m" ++ "▄")) ∧
    (∀ (fr : ANSIframe) (r : Int) (w : Nat) (s : String),
      rowPairND src fr r w d = some s → ∃ t, s = t ++ "\x1b[0m\n") := by
  refine ⟨?_, ?_, ?_⟩
  · intro hup
    simp [ANSIpixel.RenderExt, hsrc, hup, bgEscape]
  · intro hup
    simp [ANSIpixel.RenderExt, hsrc, hup, fgEscape, lowerHalfBlock]
  · intro fr r w s hs
    unfold rowPairND at hs
    cases hc : rowCellsND src fr (2 * r) w d with
    | none => rw [hc] at hs; cases hs
    | some c =>
      rw [hc] at hs
      simp only [Option.bind_eq_bind, Option.some_bind, Option.some.injEq, pure] at hs
      exact ⟨c, hs.symm⟩

/-- Witness for C6 at a concrete pixel: an upper cell with color (10, 20, 30)
in a no-dithering image renders to exactly its own background escape. -/
theorem c6_nodither_encoding_witness :
    ({ dithering := 0, bgR := 7, bgG := 8, bgB := 9 } : SrcCfg).dithering = NoDithering ∧
    ANSIpixel.RenderExt { R := 10, G := 20, B := 30, Brightness := 0, upper := true }
      { dithering := 0, bgR := 7, bgG := 8, bgB := 9 } false =
      some ("\x1b[48;2;" ++ toString (10 : Nat) ++ ";" ++ toString (20 : Nat) ++ ";" ++
        toString (30 : Nat) ++ "m") := by
  refine ⟨rfl, ?_⟩
  exact (c6_nodither_encoding { dithering := 0, bgR := 7, bgG := 8, bgB := 9 }
    { R := 10, G := 20, B := 30, Brightness := 0, upper := true } false rfl).1 rfl

/-! ## Claim C7 -/

set_option maxRecDepth 10000 in
unseal Rat.add Rat.mul Rat.inv in
/-- Claim C7: the block-averaging quantizer — which sums each channel over
the block, divides by the pixel count 32, scales to 0-255 and rounds by
adding 1/2 then truncating — maps a uniform 8×4 block of 32 identical pixels
with color channels (100/255, 150/255, 200/255) and value channel 1/2 (the
0-1 scale values that `colorful` produces for RGB (100, 150, 200) and that
the claim stipulates for brightness) to the stored cell values
R=100, G=150, B=200, brightness=128. -/
theorem c7_uniform_block :
    quantizeSums (List.replicate 32
      ((100 : ℚ)/255, (150 : ℚ)/255, (200 : ℚ)/255, (1 : ℚ)/2)) =
      (100, 150, 200, 128) := by
  decide

/-! ## Claim C8 -/

/-- Claim C8: when the GIF decoder rejects the input stream — which Go's
`gif.DecodeAll` does both for malformed streams and for streams with zero
frames (`gif: not enough image data`) — `NewFromReader` and
`NewScaledFromReader` return that decode error to the caller unchanged, for
every compositing/scaling behavior and every configuration; the error result
carries no `ANSImage`, so no partial image is exposed. -/
theorem c8_decode_error_returned :
    ∀ (drawOver : Img → Img → Img) (resizeF fillF fitF : Img → Int → Int → Img)
      (msg : String) (y x : Int) (bgR bgG bgB : Nat) (sm dm : Nat),
      NewFromReader drawOver (.error msg) bgR bgG bgB dm = .err (.decodeFailed msg) ∧
      NewScaledFromReader drawOver resizeF fillF fitF (.error msg) y x bgR bgG bgB sm dm =
        .err (.decodeFailed msg) := by
  intro drawOver resizeF fillF fitF msg y x bgR bgG bgB sm dm
  exact ⟨rfl, rfl⟩

/-! ## Claim C9 -/

/-- Claim C9: the frame index is never bounds-checked at the public
interface.  For any well-shaped image and any frame index outside
`[0, FrameCount)`, `SetAt` and `GetAt` called with in-grid `(y, x)` panic on
the slice index (they do not return the OutOfBounds error), and `FrameDelay`
panics as well — so these operations are total only under the precondition
`0 ≤ frame < FrameCount`. -/
theorem c9_frame_index_unchecked (ai : ANSImage) (f y x : Int) (r g b br : Nat)
    (hlen : ai.delay.length = ai.frame.length)
    (hf : ¬(0 ≤ f ∧ f < ai.FrameCount))
    (hy : 0 ≤ y ∧ y < ai.h) (hx : 0 ≤ x ∧ x < ai.w) :
    ai.SetAt f y x r g b br = .panicked ∧
    ai.GetAt f y x = .panicked ∧
    ai.FrameDelay f = none := by
  unfold ANSImage.FrameCount at hf
  have hfr : listIdx? ai.frame f = none := by
    rcases lt_or_ge f 0 with h0 | h0
    · exact listIdx?_neg h0
    · exact listIdx?_past h0 (by omega)
  refine ⟨?_, ?_, ?_⟩
  · unfold ANSImage.SetAt
    rw [if_pos ⟨hy.1, hy.2, hx.1, hx.2⟩, hfr]
  · unfold ANSImage.GetAt
    rw [if_pos ⟨hy.1, hy.2, hx.1, hx.2⟩, hfr]
  · unfold ANSImage.FrameDelay
    rcases lt_or_ge f 0 with h0 | h0
    · exact listIdx?_neg h0
    · exact listIdx?_past h0 (by omega)

set_option maxRecDepth 10000 in
/-- Witness for C9: the concrete 4×2 one-frame image `img4`, queried at the
out-of-range frame index 5 with the in-grid coordinate (0, 0). -/
theorem c9_frame_index_unchecked_witness :
    img4.SetAt 5 0 0 1 2 3 4 = .panicked ∧
    img4.GetAt 5 0 0 = .panicked ∧
    img4.FrameDelay 5 = none :=
  c9_frame_index_unchecked img4 5 0 0 1 2 3 4 (by decide) (by decide) (by decide) (by decide)

/-! ## Claim C1 -/

set_option maxRecDepth 100000 in
/-- Claim C1 (code bug): `ANSImage.RenderExt` does NOT render one row per
terminal row index.  On the concrete 4×2 one-frame image built by `New`
(`maxprocs = 1`): without dithering the inner loop starts its row counter at
`y+1`, so terminal row 0 (source rows 0-1) is never rendered — the output is
the single row-1 text where the spec-modelled complete render
`specRowConcat` has two rows; with block dithering the guard `r+1 < h` stops
the last row from ever being spawned — the output has rows 0-2 where
`specRowConcat` has all four.  (Each rendered row the output does contain
appears exactly once and in ascending order, and duplicate spawns of the
same row write identical text, which is why the render is deterministic at
all.) -/
theorem c1_row_coverage_bug :
    img4.RenderExt 0 false = some rowZeroND ∧
    specRowConcat img4 0 false = some (rowZeroND ++ rowZeroND) ∧
    img4.RenderExt 0 false ≠ specRowConcat img4 0 false ∧
    imgD4.RenderExt 0 false = some (rowZeroD ++ rowZeroD ++ rowZeroD) ∧
    specRowConcat imgD4 0 false = some (rowZeroD ++ rowZeroD ++ rowZeroD ++ rowZeroD) ∧
    imgD4.RenderExt 0 false ≠ specRowConcat imgD4 0 false := by
  exact ⟨by decide, by decide, by decide, by decide, by decide, by decide⟩

/-! ## Claim C2 -/

set_option maxRecDepth 100000 in
unseal Rat.add Rat.mul Rat.inv in
/-- Claim C2 (code bug): the dimension truncation happens once per frame, not
once per image, because the source reassigns `yMax`/`xMax` inside the frame
loop.  On the two-frame proxy `gif2`, whose frames are the *identical* white
8×4 buffer, block-dithering construction succeeds, quantizes frame 0 over the
single-cell region 1×1 (`8/8 × 4/4`) — cell (0,0) of frame 0 holds the white
average (255, 255, 255, 255) — but then divides again for frame 1
(`1/8 × 1/4 = 0×0`), quantizing frame 1 over the empty region: cell (0,0) of
frame 1 keeps its initial zero value.  Identical source frames are therefore
quantized over different regions, refuting the claim. -/
theorem c2_truncation_per_frame_bug :
    gif2.image = [whiteImg, whiteImg] ∧
    cellOfBuild (createANSImage gif2 0 0 0 DitheringWithBlocks) 0 0 0 =
      some { R := 255, G := 255, B := 255, Brightness := 255, upper := false } ∧
    cellOfBuild (createANSImage gif2 0 0 0 DitheringWithBlocks) 1 0 0 =
      some { R := 0, G := 0, B := 0, Brightness := 0, upper := false } := by
  exact ⟨rfl, by decide, by decide⟩

/-! ## Claim C3 -/

/-- Counterexample to claim C3: with the unknown scale mode 3, a well-formed
single-frame input and arbitrary concrete scaler/compositor stand-ins,
`NewScaledFromReader` panics (`panic(errUnknownScaleMode)` inside the
per-frame scaling loop) instead of returning a ConfigError — the result is
the panic outcome and is not an error return. -/
theorem c3_unknown_scale_mode_panics :
    NewScaledFromReader idDraw idScale idScale idScale (.ok gif1) 24 80 0 0 0 3 0 = .panicked ∧
    (NewScaledFromReader idDraw idScale idScale idScale (.ok gif1) 24 80 0 0 0 3 0).isErrReturn
      = false := by
  exact ⟨rfl, rfl⟩

/-- Claim C3 (amended): `New` rejects an odd height with dithering disabled
(`ErrHeightNonMoT`) and a height or width below 2 (`ErrInvalidBoundsMoT`) by
returning the error before any frame is processed; an unknown scale mode,
however, is NOT returned as an error: `NewScaledFromReader` panics while
scaling the first frame (the scale-mode switch sits inside the per-frame
loop, after decoding), for every compositing/scaling behavior and every
nonempty decoded input. -/
theorem c3_config_validation_amended :
    (∀ (h w n : Int) (bgR bgG bgB : Nat), h % 2 ≠ 0 →
      New h w n bgR bgG bgB NoDithering = .error .heightNonMoT) ∧
    (∀ (h w n : Int) (bgR bgG bgB : Nat) (dm : Nat), ¬(dm = NoDithering ∧ h % 2 ≠ 0) →
      (h < 2 ∨ w < 2) → New h w n bgR bgG bgB dm = .error .invalidBoundsMoT) ∧
    (∀ (drawOver : Img → Img → Img) (resizeF fillF fitF : Img → Int → Int → Img)
      (img0 : Img) (rest : List Img) (delays : List Int)
      (y x : Int) (bgR bgG bgB : Nat) (dm : Nat),
      0 < delays.length →
      NewScaledFromReader drawOver resizeF fillF fitF (.ok ⟨img0 :: rest, delays⟩)
        y x bgR bgG bgB 3 dm = .panicked) := by
  refine ⟨?_, ?_, ?_⟩
  · intro h w n bgR bgG bgB hodd
    unfold New
    rw [if_pos ⟨rfl, hodd⟩]
  · intro h w n bgR bgG bgB dm hnotodd hlt
    unfold New
    rw [if_neg hnotodd, if_pos hlt]
  · intro drawOver resizeF fillF fitF img0 rest delays y x bgR bgG bgB dm hd
    have h0 : listIdx? delays (0 : Int) = some (delays.get ⟨0, hd⟩) := by
      rw [listIdx?_of_nonneg (le_refl 0)]
      exact List.get?_eq_get hd
    have hs : scaleFrames drawOver resizeF fillF fitF y x 3 delays (img0 :: rest) 0
        (newRGBA img0.yMax img0.xMax) [] = none := by
      unfold scaleFrames
      rw [h0]
      simp
    simp only [NewScaledFromReader]
    rw [hs]

/-- Witness for C3 (amended) at concrete inputs: odd height 3 with dithering
disabled, width 1 with block dithering, and the unknown scale mode 3 on the
one-frame proxy `gif1` (with a delay entry present). -/
theorem c3_config_validation_amended_witness :
    New 3 5 1 0 0 0 NoDithering = .error .heightNonMoT ∧
    New 2 1 1 0 0 0 DitheringWithBlocks = .error .invalidBoundsMoT ∧
    NewScaledFromReader idDraw idScale idScale idScale (.ok gif1) 48 16 0 0 0 3
      DitheringWithBlocks = .panicked := by
  refine ⟨?_, ?_, ?_⟩
  · exact c3_config_validation_amended.1 3 5 1 0 0 0 (by decide)
  · exact c3_config_validation_amended.2.1 2 1 1 0 0 0 DitheringWithBlocks (by decide) (by decide)
  · exact c3_config_validation_amended.2.2 idDraw idScale idScale idScale whiteImg [] [3] 48 16
      0 0 0 DitheringWithBlocks (by decide)

/-! ## Claim C4 -/

/-- Claim C4: for every well-shaped image and valid frame index, writing a
cell inside `[0,h) × [0,w)` through `SetAt` succeeds and a `GetAt` of the same
coordinate and frame returns exactly the R, G, B and brightness values just
written (the state being arbitrary, this is last-write-wins); for every
coordinate with `y` or `x` outside that range, `SetAt` reports OutOfBounds
without producing any updated image and `GetAt` reports OutOfBounds too. -/
theorem c4_read_after_write (ai : ANSImage) (f y x : Int) (r g b br : Nat)
    (hwf : wellFormed ai) (hf : 0 ≤ f ∧ f < ai.FrameCount) :
    (inGrid ai y x →
      ∃ ai2, ai.SetAt f y x r g b br = .ok ai2 ∧
        ∃ p, ai2.GetAt f y x = .ok p ∧
          p.R = r ∧ p.G = g ∧ p.B = b ∧ p.Brightness = br) ∧
    (¬inGrid ai y x →
      ai.SetAt f y x r g b br = .outOfBounds ∧ ai.GetAt f y x = .outOfBounds) := by
  constructor
  · rintro ⟨hy0, hyh, hx0, hxw⟩
    have hflen : f.toNat < ai.frame.length := by
      unfold ANSImage.FrameCount at hf
      omega
    have hfr : listIdx? ai.frame f = some (ai.frame.get ⟨f.toNat, hflen⟩) := by
      rw [listIdx?_of_nonneg hf.1]
      exact List.get?_eq_get hflen
    obtain ⟨hfrlen, hrows⟩ := hwf (ai.frame.get ⟨f.toNat, hflen⟩) (List.get_mem ..)
    have hylen : y.toNat < (ai.frame.get ⟨f.toNat, hflen⟩).length := by
      rw [hfrlen]
      omega
    have hrow : listIdx? (ai.frame.get ⟨f.toNat, hflen⟩) y =
        some ((ai.frame.get ⟨f.toNat, hflen⟩).get ⟨y.toNat, hylen⟩) := by
      rw [listIdx?_of_nonneg hy0]
      exact List.get?_eq_get hylen
    have hrowlen := hrows ((ai.frame.get ⟨f.toNat, hflen⟩).get ⟨y.toNat, hylen⟩) (List.get_mem ..)
    have hxlen : x.toNat < ((ai.frame.get ⟨f.toNat, hflen⟩).get ⟨y.toNat, hylen⟩).length := by
      rw [hrowlen]
      omega
    have hpx : listIdx? ((ai.frame.get ⟨f.toNat, hflen⟩).get ⟨y.toNat, hylen⟩) x =
        some (((ai.frame.get ⟨f.toNat, hflen⟩).get ⟨y.toNat, hylen⟩).get ⟨x.toNat, hxlen⟩) := by
      rw [listIdx?_of_nonneg hx0]
      exact List.get?_eq_get hxlen
    set px2 : ANSIpixel :=
      { R := r, G := g, B := b, Brightness := br,
        upper := decide (ai.dithering = NoDithering ∧ y % 2 = 0) } with hpx2
    set row2 := listSet ((ai.frame.get ⟨f.toNat, hflen⟩).get ⟨y.toNat, hylen⟩) x px2 with hrow2
    set fr2 := listSet (ai.frame.get ⟨f.toNat, hflen⟩) y row2 with hfr2
    refine ⟨{ ai with frame := listSet ai.frame f fr2 }, ?_, ?_⟩
    · unfold ANSImage.SetAt
      rw [if_pos ⟨hy0, hyh, hx0, hxw⟩]
      simp only [hfr, hrow, hpx, hpx2, hrow2, hfr2]
    · refine ⟨px2, ?_, rfl, rfl, rfl, rfl⟩
      unfold ANSImage.GetAt
      rw [if_pos ⟨hy0, hyh, hx0, hxw⟩]
      simp only [hfr2, hrow2, listIdx?_listSet_self hf.1 hflen,
        listIdx?_listSet_self hy0 hylen, listIdx?_listSet_self hx0 hxlen]
  · intro hni
    unfold inGrid at hni
    constructor
    · unfold ANSImage.SetAt
      rw [if_neg hni]
    · unfold ANSImage.GetAt
      rw [if_neg hni]

set_option maxRecDepth 10000 in
/-- Witness for C4: the concrete image `img4` at frame 0, coordinate (1, 1)
in bounds and coordinate (9, 0) out of bounds. -/
theorem c4_read_after_write_witness :
    (inGrid img4 1 1 →
      ∃ ai2, img4.SetAt 0 1 1 9 8 7 6 = .ok ai2 ∧
        ∃ p, ai2.GetAt 0 1 1 = .ok p ∧
          p.R = 9 ∧ p.G = 8 ∧ p.B = 7 ∧ p.Brightness = 6) ∧
    (¬inGrid img4 9 0 →
      img4.SetAt 0 9 0 9 8 7 6 = .outOfBounds ∧ img4.GetAt 0 9 0 = .outOfBounds) ∧
    inGrid img4 1 1 ∧ ¬inGrid img4 9 0 := by
  have hw : wellFormed img4 := by
    unfold wellFormed
    decide
  have hf : (0 : Int) ≤ 0 ∧ (0 : Int) < img4.FrameCount := by decide
  exact ⟨(c4_read_after_write img4 0 1 1 9 8 7 6 hw hf).1,
         (c4_read_after_write img4 0 9 0 9 8 7 6 hw hf).2,
         by unfold inGrid; decide, by unfold inGrid; decide⟩

/-! ## Claim C10 -/

/-- Claim C10: in every reachable ANSImage — one built by `New` and then
updated by any sequence of successful `SetAt` calls, whatever color and
brightness arguments were passed — every pixel of row `y` of every frame has
its `upper` flag equal to `dithering == NoDithering && y % 2 == 0`. -/
theorem c10_upper_flag_invariant (ai : ANSImage) (hr : Reachable ai) : upperInv ai := by
  induction hr with
  | new h w n bgR bgG bgB dm ai0 hnew =>
    unfold New at hnew
    by_cases h1 : dm = NoDithering ∧ h % 2 ≠ 0
    · rw [if_pos h1] at hnew
      cases hnew
    · rw [if_neg h1] at hnew
      by_cases h2 : h < 2 ∨ w < 2
      · rw [if_pos h2] at hnew
        cases hnew
      · rw [if_neg h2] at hnew
        injection hnew with hai
        subst hai
        intro fr hfr yj row hrow p hp
        rw [List.eq_of_mem_replicate hfr] at hrow
        unfold newFrameGrid at hrow
        rw [List.get?_map] at hrow
        cases hy : (List.range h.toNat).get? yj with
        | none =>
          rw [hy] at hrow
          simp at hrow
        | some yv =>
          rw [hy] at hrow
          obtain ⟨hlt0, hgeteq⟩ := List.get?_eq_some.1 hy
          have hyv : yv = yj := by
            rw [← hgeteq]
            exact List.get_range ..
          subst hyv
          simp only [Option.map_some'] at hrow
          injection hrow with hroweq
          rw [← hroweq] at hp
          rw [List.eq_of_mem_replicate hp]
  | set ai f yy xx r g b br ai2 hreach hset ih =>
    unfold ANSImage.SetAt at hset
    by_cases hb : 0 ≤ yy ∧ yy < ai.h ∧ 0 ≤ xx ∧ xx < ai.w
    case neg =>
      rw [if_neg hb] at hset
      cases hset
    case pos =>
      rw [if_pos hb] at hset
      cases hfr : listIdx? ai.frame f with
      | none =>
        simp only [hfr] at hset
        cases hset
      | some fr =>
        simp only [hfr] at hset
        cases hrow : listIdx? fr yy with
        | none =>
          simp only [hrow] at hset
          cases hset
        | some row =>
          simp only [hrow] at hset
          cases hpx : listIdx? row xx with
          | none =>
            simp only [hpx] at hset
            cases hset
          | some px0 =>
            simp only [hpx] at hset
            injection hset with hai2
            subst hai2
            intro fr' hfr' yj row' hrow' p hp
            have hf0 : 0 ≤ f := (listIdx?_eq_some hfr).1
            have hyy0 : 0 ≤ yy := hb.1
            have hxx0 : 0 ≤ xx := hb.2.2.1
            unfold listSet at hfr'
            rw [if_pos hf0, if_pos hyy0, if_pos hxx0] at hfr'
            rcases List.mem_or_eq_of_mem_set hfr' with hmem | heq
            · exact ih fr' hmem yj row' hrow' p hp
            · subst heq
              by_cases hj : yy.toNat = yj
              case neg =>
                have hne : (fr.set yy.toNat (row.set xx.toNat
                    { R := r, G := g, B := b, Brightness := br,
                      upper := decide (ai.dithering = NoDithering ∧ yy % 2 = 0) })).get? yj =
                    fr.get? yj := by
                  rw [List.get?_eq_getElem?, List.get?_eq_getElem?]
                  exact List.getElem?_set_ne hj
                rw [hne] at hrow'
                exact ih fr (listIdx?_mem hfr) yj row' hrow' p hp
              case pos =>
                subst hj
                have hfrget : fr.get? yy.toNat = some row := (listIdx?_eq_some hrow).2
                have hfrlen : yy.toNat < fr.length := (List.get?_eq_some.1 hfrget).1
                have hsome : (fr.set yy.toNat (row.set xx.toNat
                    { R := r, G := g, B := b, Brightness := br,
                      upper := decide (ai.dithering = NoDithering ∧ yy % 2 = 0) })).get? yy.toNat =
                    some (row.set xx.toNat
                    { R := r, G := g, B := b, Brightness := br,
                      upper := decide (ai.dithering = NoDithering ∧ yy % 2 = 0) }) := by
                  rw [List.get?_eq_getElem?]
                  exact List.getElem?_set_eq_of_lt _ hfrlen
                rw [hsome] at hrow'
                injection hrow' with hrow'eq
                rw [← hrow'eq] at hp
                rcases List.mem_or_eq_of_mem_set hp with hmem2 | heq2
                · exact ih fr (listIdx?_mem hfr) yy.toNat row hfrget p hmem2
                · subst heq2
                  have hcast : ((yy.toNat : Int)) = yy := Int.toNat_of_nonneg hyy0
                  show decide (ai.dithering = NoDithering ∧ yy % 2 = 0) = _
                  rw [hcast]

set_option maxRecDepth 10000 in
/-- Witness for C10: the role-flag invariant holds of the concrete reachable
image `img4` built by `New 4 2 1`. -/
theorem c10_upper_flag_invariant_witness : upperInv img4 :=
  c10_upper_flag_invariant img4 (Reachable.new 4 2 1 0 0 0 NoDithering img4 (by rfl))

end GifLive
